import Mathlib

/-!
Verification of the StudyWithMe backend (src/server/index.js): a shallow
embedding of the job-runner request flow for POST /api/run, the download
filename validation, the docx preview text filter, and the flashcards
question/answer pairing heuristic, with theorems checking the
natural-language specification against the code.
-/

namespace StudyWithMe

/-! Character and string helpers modelling the JavaScript string operations
used by the server (trim, toLowerCase, endsWith, split). -/

/-- JavaScript whitespace test restricted to the ASCII whitespace characters
that occur in the server's data. -/
def isJsWs (c : Char) : Bool :=
  c = ' ' || c = '\t' || c = '\n' || c = '\r' || c = '\x0b' || c = '\x0c'

/-- List-level model of JavaScript String.prototype.trim. -/
def jsTrimL (cs : List Char) : List Char :=
  ((cs.dropWhile isJsWs).reverse.dropWhile isJsWs).reverse

/-- Model of JavaScript String.prototype.trim. -/
def jsTrim (s : String) : String := String.mk (jsTrimL s.data)

/-- Model of JavaScript String.prototype.endsWith on character lists. -/
def endsWithL (cs pat : List Char) : Bool :=
  decide (cs.reverse.take pat.length = pat.reverse)

/-- Model of JavaScript String.prototype.toLowerCase on character lists. -/
def lcL (cs : List Char) : List Char := cs.map Char.toLower

/-- Case-insensitive prefix strip: if the first pat.length characters of cs
equal pat up to case, return the remainder. -/
def stripCI : List Char → List Char → Option (List Char)
  | [], cs => some cs
  | _ :: _, [] => none
  | p :: ps, c :: cs => if c.toLower = p.toLower then stripCI ps cs else none

/-- Case-insensitive startsWith, modelling an anchored regex prefix test. -/
def startsWithCI (s pat : String) : Bool := (stripCI pat.data s.data).isSome

/-! The preview path filter.  The server drops extracted text runs matched by
the regex (?:[A-Za-z]:\\|\\\\|\/)\S+\.(?:pdf|txt|docx)$ with flag i, tested
(unanchored at the start) against the run. -/

/-- Recognised input extension at the end of the candidate path tail: returns
the length of the dot-plus-extension suffix when present (case-insensitive). -/
def extKind (cs : List Char) : Option Nat :=
  if endsWithL (lcL cs) ".pdf".data then some 4
  else if endsWithL (lcL cs) ".txt".data then some 4
  else if endsWithL (lcL cs) ".docx".data then some 5
  else none

/-- After a path prefix, the regex requires one or more non-whitespace
characters followed by a recognised extension at the end of the run. -/
def pathTail (cs : List Char) : Bool :=
  match extKind cs with
  | some k => decide (k < cs.length) && (cs.take (cs.length - k)).all (fun c => !isJsWs c)
  | none => false

/-- Match of the path regex starting exactly at the head of cs: a drive-letter
prefix (X:\), a UNC prefix (\\) or a slash, then a non-space tail ending in a
recognised extension. -/
def matchAt (cs : List Char) : Bool :=
  (match cs with
   | c :: ':' :: '\\' :: rest => c.isAlpha && pathTail rest
   | _ => false) ||
  (match cs with
   | '\\' :: '\\' :: rest => pathTail rest
   | _ => false) ||
  (match cs with
   | '/' :: rest => pathTail rest
   | _ => false)

/-- Unanchored search of the path regex, as RegExp.prototype.test performs. -/
def scanPathB : List Char → Bool
  | [] => false
  | c :: cs => matchAt (c :: cs) || scanPathB cs

/-- The server's pathLike test on a text run: true when the run is dropped
from preview output. -/
def pathLike (s : String) : Bool := scanPathB s.data

/-- Modelled from the spec: the spec says the filter removes runs whose
ENTIRE content looks like a filesystem path ending in a known input
extension, i.e. the whole run is the path (the path match starts at the
first character). -/
def wholeContentPathLike (s : String) : Bool := matchAt s.data

/-- The text runs kept by GET /api/summary-preview (and the other HTML
previews): every extracted run not matched by the path regex. -/
def summaryPreviewTexts (texts : List String) : List String :=
  texts.filter (fun t => !pathLike t)

theorem scanPath_spec (cs : List Char) :
    scanPathB cs = true ↔ ∃ i, matchAt (cs.drop i) = true := by
  induction cs with
  | nil =>
    constructor
    · intro h; exact absurd h (by decide)
    · rintro ⟨i, h⟩
      rw [List.drop_nil] at h
      exact absurd h (by decide)
  | cons c tl ih =>
    rw [scanPathB, Bool.or_eq_true, ih]
    constructor
    · rintro (h | ⟨i, h⟩)
      · exact ⟨0, h⟩
      · exact ⟨i + 1, by simpa using h⟩
    · rintro ⟨i, h⟩
      cases i with
      | zero => exact Or.inl (by simpa using h)
      | succ n => exact Or.inr ⟨n, by simpa using h⟩

/-- C5 counterexample: the run consisting of the text x followed by the path
token /a.pdf is removed by the preview filter although its entire content
does not look like a filesystem path (the path match starts mid-run), and
the spec's whole-content rule would have kept it. -/
theorem claim_C5_counterexample :
    summaryPreviewTexts ["x /a.pdf"] = []
    ∧ wholeContentPathLike "x /a.pdf" = false
    ∧ ["x /a.pdf"].filter (fun t => !wholeContentPathLike t) = ["x /a.pdf"] :=
  ⟨by decide, by decide, by decide⟩

/-- C5 amended: the filter removes exactly those runs that contain, ending at
the end of the run, a path-like token (a drive-letter, UNC or slash prefix
followed by non-space characters and a .pdf, .txt or .docx extension,
case-insensitively); the token may be preceded by arbitrary text.  The run
equal to C:\notes\chapter1.pdf is excluded, the run Newton's Second Law is
kept, and a run merely ending with such a token, like x /a.pdf, is also
excluded. -/
theorem claim_C5_amended :
    (∀ s : String, pathLike s = true ↔ ∃ i, matchAt (s.data.drop i) = true)
    ∧ (∀ texts : List String,
        summaryPreviewTexts texts = texts.filter (fun t => !pathLike t))
    ∧ summaryPreviewTexts ["C:\\notes\\chapter1.pdf"] = []
    ∧ summaryPreviewTexts ["Newton\x27s Second Law"] = ["Newton\x27s Second Law"]
    ∧ pathLike "x /a.pdf" = true := by
  refine ⟨fun s => scanPath_spec s.data, fun texts => rfl, by decide, by decide, by decide⟩

/-- C5 amended witness: the characterisation evaluated at the concrete run
x /a.pdf, whose path token starts at index 2. -/
theorem claim_C5_amended_witness : pathLike "x /a.pdf" = true :=
  (claim_C5_amended.1 "x /a.pdf").mpr ⟨2, by decide⟩

/-! The download endpoint GET /api/download/:name.  The name must match the
regex ^[A-Za-z0-9_.-]+\.docx$ before the filesystem is consulted. -/

/-- One character of the safe-filename character class [A-Za-z0-9_.-]. -/
def safeChar (c : Char) : Bool :=
  c.isAlpha || c.isDigit || c = '_' || c = '.' || c = '-'

/-- The download endpoint's filename validation ^[A-Za-z0-9_.-]+\.docx$: a
non-empty run of safe characters followed by the literal suffix .docx. -/
def safeName (s : String) : Bool :=
  endsWithL s.data ".docx".data
    && decide (5 < s.data.length)
    && (s.data.take (s.data.length - 5)).all safeChar

/-- Outcome of GET /api/download/:name. -/
inductive DownloadResponse where
  | invalid : DownloadResponse
  | notFound : DownloadResponse
  | fileStream (nm : String) : DownloadResponse
deriving DecidableEq

/-- HTTP status of a download outcome. -/
def downloadStatus : DownloadResponse → Nat
  | .invalid => 400
  | .notFound => 404
  | .fileStream _ => 200

/-- The download handler: reject unsafe names with 400 before any filesystem
access, then 404 when the file is absent from the outputs directory listing,
else stream it. -/
def downloadHandler (nm : String) (outFiles : List String) : DownloadResponse :=
  if safeName nm then
    if outFiles.contains nm then .fileStream nm else .notFound
  else .invalid

/-- C9: every download request whose name fails the safe pattern is answered
with HTTP 400 and no file is consulted or streamed, whatever the outputs
directory holds; in particular the traversal name ../../etc/passwd.docx is
rejected because the slashes fall outside the character class. -/
theorem claim_C9 :
    (∀ (nm : String) (outFiles : List String), safeName nm = false →
      downloadHandler nm outFiles = DownloadResponse.invalid
      ∧ downloadStatus (downloadHandler nm outFiles) = 400)
    ∧ safeName "../../etc/passwd.docx" = false
    ∧ (∀ outFiles : List String,
        downloadHandler "../../etc/passwd.docx" outFiles = DownloadResponse.invalid) := by
  refine ⟨fun nm outFiles h => ?_, by decide, fun outFiles => ?_⟩
  · rw [downloadHandler, h]
    exact ⟨rfl, rfl⟩
  · rw [downloadHandler, show safeName "../../etc/passwd.docx" = false by decide]
    rfl

/-- C9 witness: the general rejection rule applied to the concrete traversal
name with a non-empty outputs directory. -/
theorem claim_C9_witness :
    downloadHandler "../../etc/passwd.docx" ["summaries.docx"] = DownloadResponse.invalid
    ∧ downloadStatus (downloadHandler "../../etc/passwd.docx" ["summaries.docx"]) = 400 :=
  claim_C9.1 "../../etc/passwd.docx" ["summaries.docx"] (by decide)

/-! The preview endpoints' file selection: query value f is used verbatim when
it is non-empty and ends in .docx, otherwise the endpoint default is used;
no safe-name validation is applied. -/

/-- File selection shared by the preview endpoints, modelling the expression
f and f.endsWith docx then f else default. -/
def previewTarget (f dflt : String) : String :=
  if f ≠ "" ∧ endsWithL f.data ".docx".data = true then f else dflt

/-- File chosen by GET /api/summary-preview. -/
def summaryPreviewFile (f : String) : String := previewTarget f "summaries.docx"

/-- File chosen by GET /api/flashcards-preview. -/
def flashcardsPreviewFile (f : String) : String := previewTarget f "flashcards.docx"

/-- File chosen by GET /api/flashcards-json. -/
def flashcardsJsonFile (f : String) : String := previewTarget f "flashcards.docx"

/-- File chosen by GET /api/formulas-preview. -/
def formulasPreviewFile (f : String) : String := previewTarget f "formula_sheet.docx"

/-- C10: an empty or non-.docx query value is silently replaced by the
endpoint's default artifact name, while any value ending in .docx is used as
given; the download endpoint's pattern validation is not applied, so a
traversal-style name such as ../../secret.docx passes through verbatim. -/
theorem claim_C10 :
    (∀ f : String, f = "" ∨ endsWithL f.data ".docx".data = false →
      summaryPreviewFile f = "summaries.docx"
      ∧ flashcardsPreviewFile f = "flashcards.docx"
      ∧ flashcardsJsonFile f = "flashcards.docx"
      ∧ formulasPreviewFile f = "formula_sheet.docx")
    ∧ (∀ f : String, f ≠ "" → endsWithL f.data ".docx".data = true →
      summaryPreviewFile f = f ∧ flashcardsPreviewFile f = f
      ∧ flashcardsJsonFile f = f ∧ formulasPreviewFile f = f)
    ∧ endsWithL "../../secret.docx".data ".docx".data = true
    ∧ safeName "../../secret.docx" = false
    ∧ summaryPreviewFile "../../secret.docx" = "../../secret.docx" := by
  have hrepl : ∀ (f dflt : String), f = "" ∨ endsWithL f.data ".docx".data = false →
      previewTarget f dflt = dflt := by
    intro f dflt h
    rw [previewTarget, if_neg]
    rintro ⟨h1, h2⟩
    rcases h with h | h
    · exact h1 h
    · rw [h] at h2; cases h2
  have hkeep : ∀ (f dflt : String), f ≠ "" → endsWithL f.data ".docx".data = true →
      previewTarget f dflt = f := by
    intro f dflt h1 h2
    rw [previewTarget, if_pos ⟨h1, h2⟩]
  refine ⟨fun f h => ⟨hrepl f _ h, hrepl f _ h, hrepl f _ h, hrepl f _ h⟩,
    fun f h1 h2 => ⟨hkeep f _ h1 h2, hkeep f _ h1 h2, hkeep f _ h1 h2, hkeep f _ h1 h2⟩,
    by decide, by decide, ?_⟩
  exact hkeep "../../secret.docx" _ (by decide) (by decide)

/-- C10 witness: the replacement rule at the empty query value and the
pass-through rule at the unvalidated traversal name. -/
theorem claim_C10_witness :
    summaryPreviewFile "" = "summaries.docx"
    ∧ flashcardsJsonFile "../../secret.docx" = "../../secret.docx" :=
  ⟨(claim_C10.1 "" (Or.inl rfl)).1,
   (claim_C10.2.1 "../../secret.docx" (by decide) (by decide)).2.2.1⟩

/-! The Job Runner: POST /api/run.  The handler rejects an empty input
directory, builds an ordered candidate interpreter list, and walks it with
tryNext: each attempt spawns a child process whose closures share the
request-level responded flag but own a fresh log buffer and started flag.
The asynchronous subprocess events (stdout/stderr data, spawn error, close)
are modelled as an explicit event trace acting on a request state. -/

/-- Candidate interpreter path inside a local Windows virtualenv (path.join
separators abstracted to slashes). -/
def venvWin (root : String) : String := root ++ "/.venv/Scripts/python.exe"

/-- Candidate interpreter path inside a local Unix virtualenv. -/
def venvNix (root : String) : String := root ++ "/.venv/bin/python"

/-- Environment observed while building the candidate list: project root,
existence of the two virtualenv interpreters, the PYTHON_EXEC variable, and
whether the platform is win32. -/
structure InterpEnv where
  root : String
  venvWinExists : Bool
  venvNixExists : Bool
  pythonExec : Option String
  isWin32 : Bool
deriving DecidableEq

/-- Contribution of PYTHON_EXEC to the candidate list: its trimmed value when
the variable is set, non-empty and non-blank. -/
def pyExecPart (o : Option String) : List String :=
  match o with
  | some s => if s ≠ "" ∧ jsTrim s ≠ "" then [jsTrim s] else []
  | none => []

/-- The ordered candidate interpreter list built by the run handler: existing
virtualenv interpreters first, then the PYTHON_EXEC override, then the py
launcher on win32, then the generic fallbacks. -/
def candidateList (env : InterpEnv) : List String :=
  (if env.venvWinExists then [venvWin env.root] else [])
    ++ (if env.venvNixExists then [venvNix env.root] else [])
    ++ pyExecPart env.pythonExec
    ++ (if env.isWin32 then ["py"] else [])
    ++ ["python", "python3"]

/-- Static data of one run request: the candidate list, the input directory
listing (none when the directory is missing), the outputs directory listing
observed at close time, and the two directory paths used in the spawn
arguments. -/
structure RunConfig where
  candidates : List String
  inputFiles : Option (List String)
  outFiles : List String
  inputDir : String
  outDir : String
deriving DecidableEq

/-- The joined argument text of a spawn attempt. -/
def argsText (cfg : RunConfig) : String :=
  "-m src.agent.cli " ++ cfg.inputDir ++ " -" ++ "-out " ++ cfg.outDir

/-- The informational line appended to a fresh attempt log before any
subprocess output. -/
def infoLine (exe : String) (cfg : RunConfig) : String :=
  "[INFO] Trying Python: " ++ exe ++ " " ++ argsText cfg ++ "\n"

/-- The JSON body sent by the close handler. -/
structure RunReport where
  ok : Bool
  code : Option Int
  logs : String
  files : List String
  legacySummaries : Bool
  legacyFlashcards : Bool
  legacyFormulaSheet : Bool
deriving DecidableEq

/-- The terminal HTTP response of a run request. -/
inductive RunResponse where
  | emptyInputs : RunResponse
  | pythonNotFound : RunResponse
  | spawnFailure (logs : String) : RunResponse
  | report (r : RunReport) : RunResponse
deriving DecidableEq

/-- HTTP status of a run response. -/
def RunResponse.status : RunResponse → Nat
  | .emptyInputs => 400
  | .pythonNotFound => 500
  | .spawnFailure _ => 500
  | .report _ => 200

/-- Per-attempt closure state: the candidate index the attempt was spawned
for, whether any stdout/stderr data arrived, and the attempt-local log
buffer. -/
structure ChildState where
  idx : Nat
  started : Bool
  logs : String
deriving DecidableEq

/-- Request state: configuration, the spawned attempts in spawn order, the
shared responded flag, the response sent (if any) and a count of response
sends. -/
structure RunState where
  cfg : RunConfig
  children : List ChildState
  responded : Bool
  response : Option RunResponse
  sent : Nat
deriving DecidableEq

/-- Send a response: set the shared flag, record the response, count the
send. -/
def settle (st : RunState) (r : RunResponse) : RunState :=
  { st with responded := true, response := some r, sent := st.sent + 1 }

/-- The tryNext function: past the end of the candidate list it sends the
python-not-found error unless a response was already sent; otherwise it
spawns the candidate, whose fresh log buffer holds only the informational
line. -/
def tryNext (st : RunState) (idx : Nat) : RunState :=
  match st.cfg.candidates[idx]? with
  | some exe =>
    { st with children :=
        st.children ++ [{ idx := idx, started := false, logs := infoLine exe st.cfg }] }
  | none => if st.responded then st else settle st .pythonNotFound

/-- The report built by the close handler from the exit code, the attempt
log, and the outputs directory listing. -/
def closeReport (cfg : RunConfig) (code : Option Int) (logs : String) : RunReport :=
  { ok := decide (code = some 0)
    code := code
    logs := logs
    files := cfg.outFiles.filter (fun n => endsWithL (lcL n.data) ".docx".data)
    legacySummaries := cfg.outFiles.contains "summaries.docx"
    legacyFlashcards := cfg.outFiles.contains "flashcards.docx"
    legacyFormulaSheet := cfg.outFiles.contains "formula_sheet.docx" }

/-- A subprocess event delivered to the handler closures of attempt k. -/
inductive RunEvent where
  | dataEv (k : Nat) (s : String)
  | errEv (k : Nat)
  | closeEv (k : Nat) (code : Option Int)
deriving DecidableEq

/-- One event step.  Data marks the attempt started and appends to its log;
a spawn error before any data advances to the next candidate, after data it
sends the spawn-error response if none was sent; close sends the report if
no response was sent.  Events naming no spawned attempt change nothing. -/
def step (st : RunState) (e : RunEvent) : RunState :=
  match e with
  | .dataEv k s =>
    match st.children[k]? with
    | some c =>
      { st with children := st.children.set k { c with started := true, logs := c.logs ++ s } }
    | none => st
  | .errEv k =>
    match st.children[k]? with
    | some c =>
      if c.started then
        if st.responded then st else settle st (.spawnFailure c.logs)
      else tryNext st (c.idx + 1)
    | none => st
  | .closeEv k code =>
    match st.children[k]? with
    | some c =>
      if st.responded then st else settle st (.report (closeReport st.cfg code c.logs))
    | none => st

/-- State before any candidate is tried. -/
def initState (cfg : RunConfig) : RunState :=
  { cfg := cfg, children := [], responded := false, response := none, sent := 0 }

/-- The synchronous part of the handler: reject a missing or empty input
directory with 400 before any spawn, otherwise try candidate 0. -/
def initRun (cfg : RunConfig) : RunState :=
  match cfg.inputFiles with
  | none => settle (initState cfg) .emptyInputs
  | some [] => settle (initState cfg) .emptyInputs
  | some (_ :: _) => tryNext (initState cfg) 0

/-- The request state after the handler start and a trace of subprocess
events. -/
def runTrace (cfg : RunConfig) (tr : List RunEvent) : RunState :=
  tr.foldl step (initRun cfg)

/-- Send-count invariant: exactly one send has happened when the responded
flag is set, none otherwise. -/
def RunInv (st : RunState) : Prop :=
  st.sent = (if st.responded then 1 else 0)

theorem runInv_settle (st : RunState) (r : RunResponse) (hr : st.responded = false)
    (h : RunInv st) : RunInv (settle st r) := by
  simp [RunInv, settle, hr] at h ⊢
  omega

theorem runInv_tryNext (st : RunState) (idx : Nat) (h : RunInv st) :
    RunInv (tryNext st idx) := by
  cases hg : st.cfg.candidates[idx]? with
  | some exe => simpa [RunInv, tryNext, hg] using h
  | none =>
    cases hr : st.responded with
    | true => simpa [tryNext, hg, hr] using h
    | false =>
      have := runInv_settle st RunResponse.pythonNotFound hr h
      simpa [tryNext, hg, hr] using this

theorem runInv_step (st : RunState) (e : RunEvent) (h : RunInv st) :
    RunInv (step st e) := by
  cases e with
  | dataEv k s =>
    cases hg : st.children[k]? with
    | some c => simpa [RunInv, step, hg] using h
    | none => simpa [step, hg] using h
  | errEv k =>
    cases hg : st.children[k]? with
    | none => simpa [step, hg] using h
    | some c =>
      cases hs : c.started with
      | false =>
        have := runInv_tryNext st (c.idx + 1) h
        simpa [step, hg, hs] using this
      | true =>
        cases hr : st.responded with
        | true => simpa [step, hg, hs, hr] using h
        | false =>
          have := runInv_settle st (RunResponse.spawnFailure c.logs) hr h
          simpa [step, hg, hs, hr] using this
  | closeEv k code =>
    cases hg : st.children[k]? with
    | none => simpa [step, hg] using h
    | some c =>
      cases hr : st.responded with
      | true => simpa [step, hg, hr] using h
      | false =>
        have := runInv_settle st (RunResponse.report (closeReport st.cfg code c.logs)) hr h
        simpa [step, hg, hr] using this

theorem runInv_init (cfg : RunConfig) : RunInv (initRun cfg) := by
  have h0 : RunInv (initState cfg) := by simp [RunInv, initState]
  cases hin : cfg.inputFiles with
  | none => simpa [initRun, hin] using runInv_settle _ RunResponse.emptyInputs rfl h0
  | some l =>
    cases l with
    | nil => simpa [initRun, hin] using runInv_settle _ RunResponse.emptyInputs rfl h0
    | cons a tl => simpa [initRun, hin] using runInv_tryNext (initState cfg) 0 h0

theorem runInv_fold (tr : List RunEvent) :
    ∀ st : RunState, RunInv st → RunInv (tr.foldl step st) := by
  induction tr with
  | nil => intro st h; exact h
  | cons e tl ih =>
    intro st h
    rw [List.foldl_cons]
    exact ih _ (runInv_step st e h)

theorem responded_tryNext (st : RunState) (idx : Nat) (h : st.responded = true) :
    (tryNext st idx).responded = true := by
  cases hg : st.cfg.candidates[idx]? with
  | some exe => simpa [tryNext, hg] using h
  | none => simp [tryNext, hg, h]

theorem responded_step (st : RunState) (e : RunEvent) (h : st.responded = true) :
    (step st e).responded = true := by
  cases e with
  | dataEv k s =>
    cases hg : st.children[k]? with
    | some c => simpa [step, hg] using h
    | none => simpa [step, hg] using h
  | errEv k =>
    cases hg : st.children[k]? with
    | none => simpa [step, hg] using h
    | some c =>
      cases hs : c.started with
      | false => simpa [step, hg, hs] using responded_tryNext st (c.idx + 1) h
      | true => simp [step, hg, hs, h]
  | closeEv k code =>
    cases hg : st.children[k]? with
    | none => simpa [step, hg] using h
    | some c => simp [step, hg, h]

theorem responded_fold (tr : List RunEvent) :
    ∀ st : RunState, st.responded = true → (tr.foldl step st).responded = true := by
  induction tr with
  | nil => intro st h; exact h
  | cons e tl ih =>
    intro st h
    rw [List.foldl_cons]
    exact ih _ (responded_step st e h)

theorem childrenLen_tryNext (st : RunState) (idx : Nat) :
    st.children.length ≤ (tryNext st idx).children.length := by
  cases hg : st.cfg.candidates[idx]? with
  | some exe =>
    simp [tryNext, hg]
  | none =>
    cases hr : st.responded with
    | true => simp [tryNext, hg, hr]
    | false => simp [tryNext, hg, hr, settle]

theorem childrenLen_step (st : RunState) (e : RunEvent) :
    st.children.length ≤ (step st e).children.length := by
  cases e with
  | dataEv k s =>
    cases hg : st.children[k]? with
    | some c => simp [step, hg]
    | none => simp [step, hg]
  | errEv k =>
    cases hg : st.children[k]? with
    | none => simp [step, hg]
    | some c =>
      cases hs : c.started with
      | false => simpa [step, hg, hs] using childrenLen_tryNext st (c.idx + 1)
      | true =>
        cases hr : st.responded with
        | true => simp [step, hg, hs, hr]
        | false => simp [step, hg, hs, hr, settle]
  | closeEv k code =>
    cases hg : st.children[k]? with
    | none => simp [step, hg]
    | some c =>
      cases hr : st.responded with
      | true => simp [step, hg, hr]
      | false => simp [step, hg, hr, settle]

theorem childrenLen_fold (tr : List RunEvent) :
    ∀ st : RunState, st.children.length ≤ (tr.foldl step st).children.length := by
  induction tr with
  | nil => intro st; exact Nat.le_refl _
  | cons e tl ih =>
    intro st
    rw [List.foldl_cons]
    exact Nat.le_trans (childrenLen_step st e) (ih (step st e))

theorem closeZero_responded (st : RunState) (code : Option Int)
    (h : 0 < st.children.length) : (step st (.closeEv 0 code)).responded = true := by
  cases hc : st.children with
  | nil => rw [hc] at h; cases h
  | cons c tl =>
    have hg : st.children[0]? = some c := by rw [hc]; simp
    cases hr : st.responded with
    | true => simp [step, hg, hr]
    | false => simp [step, hg, hr, settle]

theorem initRun_start (cfg : RunConfig) :
    (initRun cfg).responded = true ∨ 0 < (initRun cfg).children.length := by
  cases hin : cfg.inputFiles with
  | none => left; simp [initRun, hin, settle, initState]
  | some l =>
    cases l with
    | nil => left; simp [initRun, hin, settle, initState]
    | cons a tl =>
      cases hg : cfg.candidates[0]? with
      | some exe => right; simp [initRun, hin, tryNext, initState, hg]
      | none => left; simp [initRun, hin, tryNext, initState, hg, settle]

/-- C1: in the candidate-selection loop, a spawn error arriving before any
stdout/stderr data advances to the next candidate in the list (a new attempt
for the following candidate, no response sent); but an exit with a non-zero
code settles the request as a failed job (ok false in the report) and spawns
no later attempt. -/
theorem claim_C1 :
    (∀ (st : RunState) (k : Nat) (c : ChildState) (nextExe : String),
      st.children[k]? = some c → c.started = false →
      st.cfg.candidates[c.idx + 1]? = some nextExe →
      (step st (.errEv k)).children
        = st.children ++ [{ idx := c.idx + 1, started := false, logs := infoLine nextExe st.cfg }]
      ∧ (step st (.errEv k)).response = st.response
      ∧ (step st (.errEv k)).sent = st.sent)
    ∧ (∀ (st : RunState) (k : Nat) (c : ChildState) (code : Option Int),
      st.children[k]? = some c → st.responded = false → code ≠ some 0 →
      (step st (.closeEv k code)).children = st.children
      ∧ (step st (.closeEv k code)).response
          = some (.report (closeReport st.cfg code c.logs))
      ∧ (closeReport st.cfg code c.logs).ok = false) := by
  constructor
  · intro st k c nextExe hc hs hn
    refine ⟨?_, ?_, ?_⟩ <;> simp [step, hc, hs, tryNext, hn]
  · intro st k c code hc hr hcode
    refine ⟨?_, ?_, ?_⟩
    · simp [step, hc, hr, settle]
    · simp [step, hc, hr, settle]
    · simp [closeReport]
      exact hcode

/-- Concrete run configuration with two candidates used by the witnesses and
the C7 counterexample. -/
def cfgAB : RunConfig :=
  { candidates := ["alpha", "beta"]
    inputFiles := some ["notes.txt"]
    outFiles := ["summaries.docx", "Extra.DOCX", "run.log"]
    inputDir := "IN"
    outDir := "OUT" }

/-- A one-attempt state whose candidate 0 has produced no output yet. -/
def stAlpha : RunState :=
  { cfg := cfgAB
    children := [{ idx := 0, started := false, logs := infoLine "alpha" cfgAB }]
    responded := false, response := none, sent := 0 }

/-- A one-attempt state whose candidate 0 has produced output. -/
def stBeta : RunState :=
  { cfg := cfgAB
    children := [{ idx := 0, started := true, logs := "L" }]
    responded := false, response := none, sent := 0 }

/-- C1 witness: the two step rules evaluated on concrete one-attempt
states. -/
theorem claim_C1_witness :
    ((step stAlpha (RunEvent.errEv 0)).children
        = stAlpha.children ++ [{ idx := 1, started := false, logs := infoLine "beta" stAlpha.cfg }]
      ∧ (step stAlpha (RunEvent.errEv 0)).response = stAlpha.response
      ∧ (step stAlpha (RunEvent.errEv 0)).sent = stAlpha.sent)
    ∧ ((step stBeta (RunEvent.closeEv 0 (some 2))).children = stBeta.children
      ∧ (step stBeta (RunEvent.closeEv 0 (some 2))).response
          = some (RunResponse.report (closeReport stBeta.cfg (some 2) "L"))
      ∧ (closeReport stBeta.cfg (some 2) "L").ok = false) :=
  ⟨claim_C1.1 stAlpha 0 { idx := 0, started := false, logs := infoLine "alpha" cfgAB } "beta"
      rfl rfl rfl,
   claim_C1.2 stBeta 0 { idx := 0, started := true, logs := "L" } (some 2) rfl rfl (by decide)⟩

/-- C2: at most one terminal response is ever sent for a run request; once a
response has been sent, every later subprocess event leaves the response and
the send count unchanged; and any trace in which the first attempt's close
event fires settles on exactly one response, whatever other events surround
it. -/
theorem claim_C2 :
    (∀ (cfg : RunConfig) (tr : List RunEvent), (runTrace cfg tr).sent ≤ 1)
    ∧ (∀ (st : RunState) (e : RunEvent), st.responded = true →
        (step st e).response = st.response ∧ (step st e).sent = st.sent)
    ∧ (∀ (cfg : RunConfig) (tr₁ tr₂ : List RunEvent) (code : Option Int),
        (runTrace cfg (tr₁ ++ RunEvent.closeEv 0 code :: tr₂)).sent = 1) := by
  refine ⟨?_, ?_, ?_⟩
  · intro cfg tr
    have h := runInv_fold tr (initRun cfg) (runInv_init cfg)
    unfold RunInv at h
    rw [runTrace, h]
    split <;> omega
  · intro st e h
    cases e with
    | dataEv k s =>
      cases hg : st.children[k]? with
      | some c => exact ⟨by simp [step, hg], by simp [step, hg]⟩
      | none => exact ⟨by simp [step, hg], by simp [step, hg]⟩
    | errEv k =>
      cases hg : st.children[k]? with
      | none => exact ⟨by simp [step, hg], by simp [step, hg]⟩
      | some c =>
        cases hs : c.started with
        | true => exact ⟨by simp [step, hg, hs, h], by simp [step, hg, hs, h]⟩
        | false =>
          cases hg2 : st.cfg.candidates[c.idx + 1]? with
          | some exe =>
            exact ⟨by simp [step, hg, hs, tryNext, hg2], by simp [step, hg, hs, tryNext, hg2]⟩
          | none =>
            exact ⟨by simp [step, hg, hs, tryNext, hg2, h],
              by simp [step, hg, hs, tryNext, hg2, h]⟩
    | closeEv k code =>
      cases hg : st.children[k]? with
      | none => exact ⟨by simp [step, hg], by simp [step, hg]⟩
      | some c => exact ⟨by simp [step, hg, h], by simp [step, hg, h]⟩
  · intro cfg tr₁ tr₂ code
    rw [runTrace, List.foldl_append, List.foldl_cons]
    have hresp : (step (tr₁.foldl step (initRun cfg)) (RunEvent.closeEv 0 code)).responded
        = true := by
      rcases initRun_start cfg with h | h
      · exact responded_step _ _ (responded_fold tr₁ _ h)
      · exact closeZero_responded _ code (Nat.lt_of_lt_of_le h (childrenLen_fold tr₁ _))
    have hfin := responded_fold tr₂ _ hresp
    have hinv := runInv_fold tr₂ (step (tr₁.foldl step (initRun cfg)) (RunEvent.closeEv 0 code))
      (runInv_step _ _ (runInv_fold tr₁ _ (runInv_init cfg)))
    unfold RunInv at hinv
    rw [hfin] at hinv
    simpa using hinv

/-- C2 witness: a late close event on an already-settled request changes
neither the response nor the send count. -/
theorem claim_C2_witness :
    (step (settle (initState cfgAB) RunResponse.emptyInputs) (RunEvent.closeEv 0 (some 0))).response
      = (settle (initState cfgAB) RunResponse.emptyInputs).response
    ∧ (step (settle (initState cfgAB) RunResponse.emptyInputs) (RunEvent.closeEv 0 (some 0))).sent
      = (settle (initState cfgAB) RunResponse.emptyInputs).sent :=
  claim_C2.2.1 _ _ rfl

/-- C3: when the first candidate starts (emits output) and exits with code 2,
the request settles on a status-200 JSON report with ok false, code 2, the
accumulated attempt log, the .docx listing of the outputs directory
(case-insensitive extension match), and the three legacy existence flags. -/
theorem claim_C3 :
    ∀ (cfg : RunConfig) (f exe s iD oD : String) (fl rest ofl : List String),
      cfg = ⟨exe :: rest, some (f :: fl), ofl, iD, oD⟩ →
      ∃ r : RunReport,
        (runTrace cfg [.dataEv 0 s, .closeEv 0 (some 2)]).response
          = some (RunResponse.report r)
        ∧ (RunResponse.report r).status = 200
        ∧ r.ok = false ∧ r.code = some 2
        ∧ r.logs = infoLine exe cfg ++ s
        ∧ r.files = cfg.outFiles.filter (fun n => endsWithL (lcL n.data) ".docx".data)
        ∧ r.legacySummaries = cfg.outFiles.contains "summaries.docx"
        ∧ r.legacyFlashcards = cfg.outFiles.contains "flashcards.docx"
        ∧ r.legacyFormulaSheet = cfg.outFiles.contains "formula_sheet.docx" := by
  intro cfg f exe s iD oD fl rest ofl h
  subst h
  refine ⟨closeReport ⟨exe :: rest, some (f :: fl), ofl, iD, oD⟩ (some 2)
      (infoLine exe ⟨exe :: rest, some (f :: fl), ofl, iD, oD⟩ ++ s),
    ?_, rfl, rfl, rfl, rfl, rfl, rfl, rfl, rfl⟩
  simp [runTrace, initRun, initState, tryNext, step, settle]

/-- C3 witness: the failed-job report evaluated on the concrete two-candidate
configuration. -/
theorem claim_C3_witness :
    ∃ r : RunReport,
      (runTrace cfgAB [.dataEv 0 "OUT1\n", .closeEv 0 (some 2)]).response
        = some (RunResponse.report r)
      ∧ (RunResponse.report r).status = 200
      ∧ r.ok = false ∧ r.code = some 2
      ∧ r.logs = infoLine "alpha" cfgAB ++ "OUT1\n"
      ∧ r.files = cfgAB.outFiles.filter (fun n => endsWithL (lcL n.data) ".docx".data)
      ∧ r.legacySummaries = cfgAB.outFiles.contains "summaries.docx"
      ∧ r.legacyFlashcards = cfgAB.outFiles.contains "flashcards.docx"
      ∧ r.legacyFormulaSheet = cfgAB.outFiles.contains "formula_sheet.docx" :=
  claim_C3 cfgAB "notes.txt" "alpha" "OUT1\n" "IN" "OUT" [] ["beta"]
    ["summaries.docx", "Extra.DOCX", "run.log"] rfl

theorem step_fixed_of_no_children (st : RunState) (e : RunEvent)
    (h : st.children = []) : step st e = st := by
  cases e <;> simp [step, h]

/-- C6: a run request made while the input directory is missing or empty is
answered with the 400 empty-inputs error and no attempt is ever spawned,
whatever subprocess events the trace would carry. -/
theorem claim_C6 :
    ∀ (cfg : RunConfig) (tr : List RunEvent),
      cfg.inputFiles = none ∨ cfg.inputFiles = some [] →
      (runTrace cfg tr).response = some RunResponse.emptyInputs
      ∧ RunResponse.emptyInputs.status = 400
      ∧ (runTrace cfg tr).children = [] := by
  intro cfg tr h
  have hinit : initRun cfg = settle (initState cfg) .emptyInputs := by
    rcases h with h | h <;> simp [initRun, h]
  have hfix : ∀ (es : List RunEvent) (st : RunState), st.children = [] →
      es.foldl step st = st := by
    intro es
    induction es with
    | nil => intro st _; rfl
    | cons e tl ih =>
      intro st hst
      rw [List.foldl_cons, step_fixed_of_no_children st e hst]
      exact ih st hst
  rw [runTrace, hinit, hfix tr _ rfl]
  exact ⟨rfl, rfl, rfl⟩

/-- Configuration with an empty input directory. -/
def cfgEmpty : RunConfig :=
  { candidates := ["python"], inputFiles := some [], outFiles := []
    inputDir := "IN", outDir := "OUT" }

/-- C6 witness: the empty-inputs rejection on a concrete configuration and
trace. -/
theorem claim_C6_witness :
    (runTrace cfgEmpty [RunEvent.closeEv 0 (some 0)]).response = some RunResponse.emptyInputs
    ∧ RunResponse.emptyInputs.status = 400
    ∧ (runTrace cfgEmpty [RunEvent.closeEv 0 (some 0)]).children = [] :=
  claim_C6 cfgEmpty [RunEvent.closeEv 0 (some 0)] (Or.inr rfl)

/-! Substring occurrence, modelling String.prototype.includes, used to state
what the final log does and does not contain. -/

/-- Prefix test on character lists. -/
def isPrefixL : List Char → List Char → Bool
  | [], _ => true
  | _ :: _, [] => false
  | p :: ps, c :: cs => decide (p = c) && isPrefixL ps cs

/-- Occurrence of pat anywhere in the character list. -/
def containsSub (pat : List Char) : List Char → Bool
  | [] => isPrefixL pat []
  | c :: cs => isPrefixL pat (c :: cs) || containsSub pat cs

/-- Occurrence of pat anywhere in s. -/
def containsStr (s pat : String) : Bool := containsSub pat.data s.data

/-- C7 counterexample: candidate alpha fails to spawn before producing
output, candidate beta then starts and exits 0; the final log is beta's
informational line plus beta's output, and it does not contain alpha's
informational line (nor even the string alpha), because each attempt resets
the log buffer. -/
theorem claim_C7_counterexample :
    (runTrace cfgAB [.errEv 0, .dataEv 1 "BETA OUT\n", .closeEv 1 (some 0)]).response
      = some (.report (closeReport cfgAB (some 0) (infoLine "beta" cfgAB ++ "BETA OUT\n")))
    ∧ containsStr (infoLine "beta" cfgAB ++ "BETA OUT\n") (infoLine "alpha" cfgAB) = false
    ∧ containsStr (infoLine "beta" cfgAB ++ "BETA OUT\n") "alpha" = false :=
  ⟨rfl, by decide, by decide⟩

/-- C7 amended: when candidate 1 fails to spawn before producing output and
candidate 2 then starts and exits, the final response's log consists of
candidate 2's informational line followed by candidate 2's output only
(candidate 1's attempt line is not retained, the log buffer being local to
each attempt), and the reported exit code is candidate 2's. -/
theorem claim_C7_amended :
    ∀ (cfg : RunConfig) (a b s f iD oD : String) (fl ofl : List String) (code : Option Int),
      cfg = ⟨[a, b], some (f :: fl), ofl, iD, oD⟩ →
      ∃ r : RunReport,
        (runTrace cfg [.errEv 0, .dataEv 1 s, .closeEv 1 code]).response
          = some (RunResponse.report r)
        ∧ r.code = code
        ∧ r.logs = infoLine b cfg ++ s := by
  intro cfg a b s f iD oD fl ofl code h
  subst h
  refine ⟨closeReport ⟨[a, b], some (f :: fl), ofl, iD, oD⟩ code
      (infoLine b ⟨[a, b], some (f :: fl), ofl, iD, oD⟩ ++ s), ?_, rfl, rfl⟩
  simp [runTrace, initRun, initState, tryNext, step, settle]

/-- C7 amended witness: the two-candidate fallback evaluated on the concrete
configuration. -/
theorem claim_C7_amended_witness :
    ∃ r : RunReport,
      (runTrace cfgAB [.errEv 0, .dataEv 1 "BETA OUT\n", .closeEv 1 (some 0)]).response
        = some (RunResponse.report r)
      ∧ r.code = some 0
      ∧ r.logs = infoLine "beta" cfgAB ++ "BETA OUT\n" :=
  claim_C7_amended cfgAB "alpha" "beta" "BETA OUT\n" "notes.txt" "IN" "OUT" []
    ["summaries.docx", "Extra.DOCX", "run.log"] (some 0) rfl

/-- C8 counterexample: in an environment where the Windows virtualenv
interpreter exists and PYTHON_EXEC is set to the non-blank value /opt/pypy,
the candidate list starts with the virtualenv interpreter, not with
PYTHON_EXEC. -/
theorem claim_C8_counterexample :
    (InterpEnv.mk "ROOT" true false (some "/opt/pypy") false).pythonExec = some "/opt/pypy"
    ∧ jsTrim "/opt/pypy" ≠ ""
    ∧ (candidateList (InterpEnv.mk "ROOT" true false (some "/opt/pypy") false)).head?
        = some (venvWin "ROOT")
    ∧ (candidateList (InterpEnv.mk "ROOT" true false (some "/opt/pypy") false)).head?
        ≠ some "/opt/pypy" :=
  ⟨rfl, by decide, by decide, by decide⟩

/-- C8 amended: the trimmed PYTHON_EXEC override is placed immediately after
any existing local virtualenv interpreters and before the platform launcher
py and the generic fallbacks python and python3; it is first exactly when
neither virtualenv interpreter exists. -/
theorem claim_C8_amended :
    ∀ (env : InterpEnv) (s : String),
      env.pythonExec = some s → s ≠ "" → jsTrim s ≠ "" →
      candidateList env
        = (if env.venvWinExists then [venvWin env.root] else [])
          ++ (if env.venvNixExists then [venvNix env.root] else [])
          ++ jsTrim s :: ((if env.isWin32 then ["py"] else []) ++ ["python", "python3"])
      ∧ (env.venvWinExists = false → env.venvNixExists = false →
          (candidateList env).head? = some (jsTrim s)) := by
  intro env s h h1 h2
  have hp : pyExecPart env.pythonExec = [jsTrim s] := by
    rw [h]
    simp [pyExecPart, h1, h2]
  constructor
  · rw [candidateList, hp]
    simp
  · intro hw hn
    rw [candidateList, hp, hw, hn]
    simp

/-- C8 amended witness: with no virtualenv present on a win32 host, the
trimmed override heads the list. -/
theorem claim_C8_amended_witness :
    candidateList (InterpEnv.mk "ROOT" false false (some " pypy ") true)
      = jsTrim " pypy " :: (["py"] ++ ["python", "python3"])
    ∧ (candidateList (InterpEnv.mk "ROOT" false false (some " pypy ") true)).head?
      = some (jsTrim " pypy ") := by
  have h := claim_C8_amended (InterpEnv.mk "ROOT" false false (some " pypy ") true) " pypy "
    rfl (by decide) (by decide)
  exact ⟨by simpa using h.1, h.2 rfl rfl⟩

/-! The flashcards-json endpoint: trimmed, filtered text runs are paired into
question/answer cards by the Q:/A: heuristic, a leading header-like card is
dropped, and leading labels are stripped from both fields. -/

/-- The trailing capture of the line regexes: after optional whitespace at
least one character must remain; JavaScript backtracking yields the rest of
the line with as much leading whitespace removed as possible while keeping
the capture non-empty. -/
def captureRest (cs : List Char) : Option (List Char) :=
  match cs with
  | [] => none
  | _ :: _ => some (cs.drop (min (cs.takeWhile isJsWs).length (cs.length - 1)))

/-- After the Q/A keyword: optional whitespace, a colon or dash separator,
then the capture. -/
def afterKey (cs : List Char) : Option (List Char) :=
  match cs.dropWhile isJsWs with
  | c :: tl => if c = ':' || c = '-' then captureRest tl else none
  | [] => none

/-- Anchored case-insensitive match of lead whitespace, a short or long
keyword alternative (the short one tried first, as JavaScript alternation
does), a separator and a capture. -/
def keyMatch (short long : List Char) (s : String) : Option String :=
  let b := s.data.dropWhile isJsWs
  match stripCI short b with
  | some r =>
    match afterKey r with
    | some cap => some (String.mk cap)
    | none =>
      match stripCI long b with
      | some r2 => (afterKey r2).map String.mk
      | none => none
  | none => none

/-- The question-line regex of the pairing loop. -/
def qMatch (s : String) : Option String := keyMatch "q".data "question".data s

/-- The answer-line regex of the pairing loop. -/
def aMatch (s : String) : Option String := keyMatch "a".data "answer".data s

/-- A question/answer flashcard. -/
structure Card where
  q : String
  a : String
deriving DecidableEq

/-- JavaScript truthiness of the currentQ variable: a non-null, non-empty
string. -/
def truthy : Option String → Bool
  | none => false
  | some s => decide (s ≠ "")

/-- One iteration of the pairing loop over (currentQ, cards). -/
def pairStep (st : Option String × List Card) (line : String) : Option String × List Card :=
  match qMatch line with
  | some cap =>
    (some (jsTrim cap), if truthy st.1 then st.2 ++ [⟨st.1.getD "", ""⟩] else st.2)
  | none =>
    match aMatch line with
    | some cap =>
      if truthy st.1 then (none, st.2 ++ [⟨st.1.getD "", jsTrim cap⟩]) else st
    | none =>
      match st.1 with
      | none => (some line, st.2)
      | some q => (none, st.2 ++ [⟨q, line⟩])

/-- End of the loop: a truthy pending question is emitted with an empty
answer. -/
def finalizePairs (st : Option String × List Card) : List Card :=
  if truthy st.1 then st.2 ++ [⟨st.1.getD "", ""⟩] else st.2

/-- The pairing pass over the filtered runs. -/
def pairRuns (lines : List String) : List Card :=
  finalizePairs (lines.foldl pairStep (none, []))

/-- Helper for the whitespace split: walks the characters carrying the
current field (reversed) and whether the previous character was
whitespace. -/
def splitWsAux : List Char → List Char → Bool → List String
  | [], acc, _ => [String.mk acc.reverse]
  | c :: cs, acc, prevWs =>
    if isJsWs c then
      if prevWs then splitWsAux cs acc true
      else String.mk acc.reverse :: splitWsAux cs [] true
    else splitWsAux cs (c :: acc) false

/-- JavaScript split on runs of whitespace, including the empty leading and
trailing fields it produces. -/
def jsSplitWs (s : String) : List String := splitWsAux s.data [] false

/-- The header heuristic on the first card: empty or blank answer, a
non-empty question of fewer than three whitespace-separated fields, or a
question starting with a header word. -/
def looksHeader (c : Card) : Bool :=
  (decide (c.a = "") || decide (jsTrim c.a = ""))
    || (decide (c.q ≠ "") && decide ((jsSplitWs c.q).length < 3))
    || startsWithCI c.q "flashcard" || startsWithCI c.q "summary"
    || startsWithCI c.q "content" || startsWithCI c.q "study"

/-- Drop the first card when it looks like a document header. -/
def dropHeaderCard : List Card → List Card
  | [] => []
  | c :: rest => if looksHeader c then rest else c :: rest

/-- One label-strip replace: when the first non-blank character is the
keyword letter (the longer keyword alternative of the regex is unreachable,
its rest being optional), greedily consume whitespace, digits, whitespace,
one optional punctuation mark and trailing whitespace; otherwise leave the
string unchanged. -/
def stripKey (k : Char) (cs : List Char) : List Char :=
  match cs.dropWhile isJsWs with
  | c :: tl =>
    if c.toLower = k then
      let r2 := ((tl.dropWhile isJsWs).dropWhile Char.isDigit).dropWhile isJsWs
      match r2 with
      | p :: tl2 =>
        if p = ':' || p = '.' || p = ')' || p = '-' then tl2.dropWhile isJsWs
        else r2
      | [] => r2
    else cs
  | [] => cs

/-- The bullet-strip replace: a mandatory bullet or dash after optional
whitespace. -/
def stripBullet (cs : List Char) : List Char :=
  match cs.dropWhile isJsWs with
  | c :: tl => if c = '•' || c = '-' then tl.dropWhile isJsWs else cs
  | [] => cs

/-- The card normalisation: strip a leading Q-label, then a leading A-label,
then a leading bullet, then trim. -/
def stripLabel (s : String) : String :=
  jsTrim (String.mk (stripBullet (stripKey 'a' (stripKey 'q' s.data))))

/-- The run pre-processing of the flashcards-json endpoint: trim every run,
drop empty and path-like runs. -/
def flashTexts (texts : List String) : List String :=
  (texts.map jsTrim).filter (fun t => decide (t ≠ "") && !pathLike t)

/-- The full flashcards-json card pipeline from the extracted text runs. -/
def flashcardsCards (texts : List String) : List Card :=
  (dropHeaderCard (pairRuns (flashTexts texts))).map
    (fun c => ⟨stripLabel c.q, stripLabel c.a⟩)

/-- C4: the pairing loop follows the spec's heuristic: a Q-prefixed run
starts a new question, first emitting any pending question with an empty
answer; an A-prefixed run completes the pending question and is ignored when
none is pending; an unprefixed run becomes the pending question when none is
pending and otherwise completes it as its answer; a question still pending
at the end is emitted with an empty answer.  On the spec's example runs the
full pipeline yields the two expected cards, the first card not being
header-like, so none is dropped by the leading-header rule. -/
theorem claim_C4 :
    (∀ (line cap q : String) (cards : List Card),
      qMatch line = some cap → q ≠ "" →
      pairStep (some q, cards) line = (some (jsTrim cap), cards ++ [⟨q, ""⟩]))
    ∧ (∀ (line cap : String) (cards : List Card),
      qMatch line = some cap →
      pairStep (none, cards) line = (some (jsTrim cap), cards))
    ∧ (∀ (line cap q : String) (cards : List Card),
      qMatch line = none → aMatch line = some cap → q ≠ "" →
      pairStep (some q, cards) line = (none, cards ++ [⟨q, jsTrim cap⟩]))
    ∧ (∀ (line cap : String) (cards : List Card),
      qMatch line = none → aMatch line = some cap →
      pairStep (none, cards) line = (none, cards))
    ∧ (∀ (line : String) (cards : List Card),
      qMatch line = none → aMatch line = none →
      pairStep (none, cards) line = (some line, cards))
    ∧ (∀ (line q : String) (cards : List Card),
      qMatch line = none → aMatch line = none →
      pairStep (some q, cards) line = (none, cards ++ [⟨q, line⟩]))
    ∧ (∀ (q : String) (cards : List Card), q ≠ "" →
      finalizePairs (some q, cards) = cards ++ [⟨q, ""⟩])
    ∧ (∀ cards : List Card, finalizePairs (none, cards) = cards)
    ∧ flashcardsCards ["Q: What is inertia?", "A: Resistance to change in motion", "Random fact"]
        = [⟨"What is inertia?", "Resistance to change in motion"⟩, ⟨"Random fact", ""⟩]
    ∧ looksHeader ⟨"What is inertia?", "Resistance to change in motion"⟩ = false := by
  refine ⟨?_, ?_, ?_, ?_, ?_, ?_, ?_, ?_, by decide, by decide⟩
  · intro line cap q cards hq hne
    simp [pairStep, hq, truthy, hne]
  · intro line cap cards hq
    simp [pairStep, hq, truthy]
  · intro line cap q cards hq ha hne
    simp [pairStep, hq, ha, truthy, hne]
  · intro line cap cards hq ha
    simp [pairStep, hq, ha, truthy]
  · intro line cards hq ha
    simp [pairStep, hq, ha]
  · intro line q cards hq ha
    simp [pairStep, hq, ha]
  · intro q cards hne
    simp [finalizePairs, truthy, hne]
  · intro cards
    simp [finalizePairs, truthy]

/-- C4 witness: the transition rules evaluated on concrete lines and a
concrete pending question. -/
theorem claim_C4_witness :
    pairStep (some "X", []) "Q: T?" = (some (jsTrim "T?"), [⟨"X", ""⟩])
    ∧ pairStep (some "X", []) "A: yes" = (none, [⟨"X", jsTrim "yes"⟩])
    ∧ pairStep (some "X", []) "plain" = (none, [⟨"X", "plain"⟩])
    ∧ finalizePairs (some "X", []) = [⟨"X", ""⟩] :=
  ⟨claim_C4.1 "Q: T?" "T?" "X" [] (by decide) (by decide),
   claim_C4.2.2.1 "A: yes" "yes" "X" [] (by decide) (by decide) (by decide),
   claim_C4.2.2.2.2.2.1 "plain" "X" [] (by decide) (by decide),
   claim_C4.2.2.2.2.2.2.1 "X" [] (by decide)⟩

end StudyWithMe
